import Mathlib

/-!
Shallow embedding of the static analyzer in
`src/ai_code_agent/analyzer.py` (class `CodeAnalyzer`), together with
proofs about its behaviour.

Modelling conventions:
* A parsed Python syntax tree is the inductive `Node`: a node kind plus a
  list of child nodes, matching `ast.iter_child_nodes`.  The Python
  standard library's `ast.parse` and `ast.walk` are external to the
  repository; `ast.walk` is documented to yield every node of the tree in
  no specified order, so we embed it as a preorder traversal.
* Machine state that the Python code mutates (`self.results`) is passed
  explicitly as the `Results` structure.
* File contents live in an explicit model of the filesystem: a file is
  either unreadable, or readable with its lines (the result of
  `splitlines`) and the outcome of `ast.parse` (a tree or a syntax-error
  message).
* `print` calls are collected into a log list; an exception escaping
  `run` is the `Outcome.raised` constructor.
-/

namespace AiCodeAgent

/-- A single physical line of source text (one element of `splitlines()`). -/
abbrev Line := List Char

/-- Node kinds of the embedded Python AST.  Only the kinds the analyzer
inspects carry payload; every other node is `otherK`.  `andK`/`orK` are the
`ast.And`/`ast.Or` operator nodes that `ast.walk` yields as children of a
`BoolOp`.  For definition-like nodes the result of `ast.get_docstring`
(standard library, external to the repository) is carried as a field. -/
inductive NodeKind where
  | ifK (lineno : Nat)
  | forK
  | whileK
  | andK
  | orK
  | tryK
  | withK
  | exceptHandlerK
  | functionDefK (lineno : Nat) (name : String) (docstring : Option String)
  | asyncFunctionDefK (lineno : Nat) (name : String) (docstring : Option String)
  | classDefK (lineno : Nat) (name : String) (docstring : Option String)
  | importK (names : List String)
  | importFromK (module : Option String)
  | otherK
  deriving DecidableEq, Repr

/-- An embedded AST node: a kind and the list of child nodes
(`ast.iter_child_nodes`). -/
inductive Node where
  | mk (kind : NodeKind) (children : List Node)

/-- The node's kind. -/
def Node.kind : Node → NodeKind
  | .mk k _ => k

/-- The node's direct children, as `ast.iter_child_nodes` yields them. -/
def Node.children : Node → List Node
  | .mk _ cs => cs

mutual

/-- `ast.walk`: every node of the subtree rooted at `n`, the node itself
included.  The Python documentation leaves the order unspecified; we use
preorder. -/
def walk : Node → List Node
  | .mk k cs => .mk k cs :: walkList cs

/-- The concatenated walks of a list of sibling subtrees. -/
def walkList : List Node → List Node
  | [] => []
  | c :: cs => walk c ++ walkList cs

end

/-- The `isinstance` test of `_compute_complexity`: is this node one of
`ast.If, ast.For, ast.While, ast.And, ast.Or, ast.Try, ast.With,
ast.ExceptHandler`? -/
def isDecision (n : Node) : Bool :=
  match n.kind with
  | .ifK _ => true
  | .forK => true
  | .whileK => true
  | .andK => true
  | .orK => true
  | .tryK => true
  | .withK => true
  | .exceptHandlerK => true
  | _ => false

/-- `CodeAnalyzer._compute_complexity`, the numeric part: start at 1 and
add 1 for every matching node seen by `ast.walk`. -/
def compute_complexity (tree : Node) : Nat :=
  (walk tree).foldl (fun complexity node =>
    if isDecision node then complexity + 1 else complexity) 1

/-- The warning `_compute_complexity` appends when the score exceeds 12. -/
def complexityWarnings (filepath : String) (tree : Node) : List String :=
  let complexity := compute_complexity tree
  if complexity > 12 then
    [filepath ++ " has high cyclomatic complexity: " ++ toString complexity]
  else []

/-- Is this node an `ast.If`? -/
def isIfNode (n : Node) : Bool :=
  match n.kind with
  | .ifK _ => true
  | _ => false

mutual

/-- `CodeAnalyzer._nesting_depth`: a non-`If` node returns `current`; an
`If` node returns `max([current] + recursive depths of its direct
children at current + 1)`. -/
def nesting_depth : Node → Nat → Nat
  | .mk (.ifK _) cs, current =>
      (nestingDepthList cs (current + 1)).foldl Nat.max current
  | .mk _ _, current => current

/-- The list comprehension of `_nesting_depth`: the recursive depth of
each child at the given counter. -/
def nestingDepthList : List Node → Nat → List Nat
  | [], _ => []
  | c :: cs, current => nesting_depth c current :: nestingDepthList cs current

end

/-- The line number of an `If` node (`node.lineno`); 0 on other nodes,
which `_analyze_structure` never queries. -/
def Node.lineno : Node → Nat
  | .mk (.ifK l) _ => l
  | _ => 0

mutual

/-- Modelled from the spec, for comparison with `nesting_depth` (not part
of the source): the depth the specification ascribes to a conditional
node — 1 plus the maximum depth of any nested conditional reachable as a
descendant, 0 if none (so a leaf conditional has depth 1).  Because the
specified depth of a conditional strictly dominates the depth of every
conditional nested below it, the maximum over all conditional descendants
equals the maximum over the outermost ones, which this structural
recursion takes; `specNestingDepth_eq_walk` below certifies the
descendant-based reading. -/
def specNestingDepth : Node → Nat
  | .mk _ cs => 1 + maxCondList cs

/-- The maximum specified depth of any conditional in the subtree rooted
at the node (the node itself included), 0 if there is none. -/
def maxCond : Node → Nat
  | .mk (.ifK _) cs => 1 + maxCondList cs
  | .mk _ cs => maxCondList cs

/-- The maximum specified depth of any conditional in the subtrees of the
given nodes, 0 if there is none. -/
def maxCondList : List Node → Nat
  | [] => 0
  | c :: cs => Nat.max (maxCond c) (maxCondList cs)

end

/-- `CodeAnalyzer._analyze_structure`: for every `ast.If` node in the
walk whose nesting depth exceeds 4, emit a deep-nesting warning. -/
def analyze_structure (filepath : String) (tree : Node) : List String :=
  (walk tree).flatMap (fun node =>
    if isIfNode node then
      let depth := nesting_depth node 0
      if depth > 4 then
        [filepath ++ ":" ++ toString node.lineno ++ " -> Deep nesting ("
          ++ toString depth ++ " levels)"]
      else []
    else [])

/-- The apostrophe character, to quote names in messages. -/
def quoteChar : String := String.singleton (Char.ofNat 39)

/-- The missing-docstring message of `_analyze_docstrings` for one
definition node. -/
def missingDocMsg (filepath : String) (lineno : Nat) (className name : String) :
    String :=
  filepath ++ ":" ++ toString lineno ++ " -> Missing docstring in "
    ++ className ++ " " ++ quoteChar ++ name ++ quoteChar

/-- `CodeAnalyzer._analyze_docstrings`: for every `FunctionDef`,
`AsyncFunctionDef` or `ClassDef` node without a docstring, emit a
missing-docstring finding. -/
def analyze_docstrings (filepath : String) (tree : Node) : List String :=
  (walk tree).flatMap (fun node =>
    match node.kind with
    | .functionDefK lineno name none =>
        [missingDocMsg filepath lineno "FunctionDef" name]
    | .asyncFunctionDefK lineno name none =>
        [missingDocMsg filepath lineno "AsyncFunctionDef" name]
    | .classDefK lineno name none =>
        [missingDocMsg filepath lineno "ClassDef" name]
    | _ => [])

/-- Python `str.endswith` on character lists: the last `len(suffix)`
characters equal the suffix (false when the text is shorter). -/
def endsWithChars (cs xs : List Char) : Bool :=
  cs.drop (cs.length - xs.length) == xs

/-- Python `str.endswith`. -/
def pyEndsWith (s suffix : String) : Bool :=
  endsWithChars s.toList suffix.toList

/-- The character class of the regex `,[A-Za-z0-9_]` after the comma:
an ASCII letter, digit or underscore. -/
def isWordChar (c : Char) : Bool :=
  (Char.ofNat 65 ≤ c && c ≤ Char.ofNat 90)
    || (Char.ofNat 97 ≤ c && c ≤ Char.ofNat 122)
    || (Char.ofNat 48 ≤ c && c ≤ Char.ofNat 57)
    || c = Char.ofNat 95

/-- `re.search(",[A-Za-z0-9_]", line)` as a Boolean: some comma in the
line is immediately followed by a word character. -/
def commaNoSpace : Line → Bool
  | [] => false
  | [_] => false
  | c1 :: c2 :: rest => (c1 = ',' && isWordChar c2) || commaNoSpace (c2 :: rest)

/-- Check 1 of `_check_pep8`: `len(line) > 120`. -/
def tooLongIssue (filepath : String) (i : Nat) (line : Line) : List String :=
  if line.length > 120 then
    [filepath ++ ":" ++ toString i ++ " -> Line too long ("
      ++ toString line.length ++ " > 120)"]
  else []

/-- Check 2 of `_check_pep8`: `line.endswith(" ")`. -/
def trailingIssue (filepath : String) (i : Nat) (line : Line) : List String :=
  if endsWithChars line [' '] then
    [filepath ++ ":" ++ toString i ++ " -> Trailing whitespace"]
  else []

/-- Check 3 of `_check_pep8`: `re.search(r",[A-Za-z0-9_]", line)`. -/
def commaIssue (filepath : String) (i : Nat) (line : Line) : List String :=
  if commaNoSpace line then
    [filepath ++ ":" ++ toString i ++ " -> Missing space after comma"]
  else []

/-- Check 4 of `_check_pep8`: `"\t" in line`. -/
def tabIssue (filepath : String) (i : Nat) (line : Line) : List String :=
  if line.contains '\t' then
    [filepath ++ ":" ++ toString i ++ " -> Tab indent found (use 4 spaces)"]
  else []

/-- The loop body of `_check_pep8` for one line: the four checks run
independently, in source order, each appending its own finding. -/
def lineIssues (filepath : String) (i : Nat) (line : Line) : List String :=
  tooLongIssue filepath i line ++ trailingIssue filepath i line
    ++ commaIssue filepath i line ++ tabIssue filepath i line

/-- `CodeAnalyzer._check_pep8`: scan the lines of the raw text, numbered
from 1. -/
def check_pep8 (filepath : String) (lines : List Line) : List String :=
  (lines.enumFrom 1).flatMap (fun p => lineIssues filepath p.1 p.2)

/-- `name.split(".")[0]`: the top-level component of a dotted module
name. -/
def topComponent (name : String) : String :=
  (name.splitOn ".").headD ""

/-- The imports one node contributes in `_register_imports`: all alias
top components for `ast.Import`, the module's top component for
`ast.ImportFrom` when `node.module` is not `None`, nothing otherwise. -/
def nodeImports (n : Node) : List String :=
  match n.kind with
  | .importK names => names.map topComponent
  | .importFromK (some m) => [topComponent m]
  | _ => []

/-- The `imports` list `_register_imports` builds by walking the tree. -/
def collectImports (tree : Node) : List String :=
  (walk tree).flatMap nodeImports

/-- `os.path.basename`: the component after the last slash. -/
def pyBasename (p : String) : String :=
  (p.splitOn "/").getLastD ""

/-- Modelled from the standard library `os.path.splitext`, root part:
split at the last dot of the name, unless every character before that dot
is itself a dot (so ".py" and "..py" are left whole). -/
def splitextRoot (s : String) : String :=
  let cs := s.toList
  match cs.reverse.findIdx? (fun c => c = '.') with
  | none => s
  | some j =>
      let root := cs.take (cs.length - 1 - j)
      if root.any (fun c => c ≠ '.') then String.mk root else s

/-- The module identifier of a file:
`os.path.splitext(os.path.basename(filepath))[0]`. -/
def moduleId (filepath : String) : String :=
  splitextRoot (pyBasename filepath)

/-- Python `dict` assignment `d[k] = v` on an insertion-ordered
association list: replace in place if the key exists, append
otherwise. -/
def dictSet {α : Type} : List (String × α) → String → α → List (String × α)
  | [], k, v => [(k, v)]
  | (k', v') :: rest, k, v =>
      if k' = k then (k, v) :: rest else (k', v') :: dictSet rest k v

/-- Python `dict.get(k, [])` on the association list. -/
def dictGet (d : List (String × List String)) (k : String) : List String :=
  match d.find? (fun p => p.1 = k) with
  | some p => p.2
  | none => []

/-- An import graph: module identifier to the ordered list of imported
identifiers, insertion ordered like a Python `dict`. -/
abbrev ImportGraph := List (String × List String)

/-- The inner `dfs` of `_detect_import_cycles`.  The Python recursion
terminates because the path only ever grows by nodes not already on it;
the embedding makes that explicit with a fuel argument that `run` always
supplies in excess. -/
def dfs (graph : ImportGraph) : Nat → String → List String → List String
  | 0, _, _ => []
  | fuel + 1, node, path =>
      if node ∈ path then
        ["Cycle detected: " ++ String.intercalate " -> " (path ++ [node])]
      else
        (dictGet graph node).flatMap (fun nxt => dfs graph fuel nxt (path ++ [node]))

/-- Fuel that strictly exceeds the number of distinct identifiers the
path could ever hold: every key plus every mentioned neighbour. -/
def dfsFuel (graph : ImportGraph) : Nat :=
  graph.length + (graph.map (fun p => p.2.length)).sum + 1

/-- `CodeAnalyzer._detect_import_cycles`: restart a depth-first search
from every key of the graph; no memoization across starting nodes. -/
def detect_import_cycles (graph : ImportGraph) : List String :=
  graph.flatMap (fun p => dfs graph (dfsFuel graph) p.1 [])

/-- The contents of one file in the modelled filesystem: unreadable
(`open` raises), or readable with its lines and the outcome of
`ast.parse` (a tree, or the syntax error's message text). -/
inductive FileData where
  | unreadable
  | readable (lines : List Line) (parsed : Except String Node)

/-- The first-10-lines signature of `_detect_duplicates` (a file shorter
than 10 lines is signed by its full content). -/
def signatureOf (lines : List Line) : List Line :=
  lines.take 10

/-- `seen[snippet].append(fpath)` on an insertion-ordered grouping. -/
def addToGroups : List (List Line × List String) → List Line → String →
    List (List Line × List String)
  | [], key, p => [(key, [p])]
  | (k, ps) :: rest, key, p =>
      if k = key then (k, ps ++ [p]) :: rest
      else (k, ps) :: addToGroups rest key p

/-- The grouping loop of `_detect_duplicates` over `results["files"]`:
re-open every analyzed file and group it by signature.  The `open` is not
guarded by `try`, so an unreadable file raises; that exception is
modelled as `Except.error` carrying the offending path. -/
def buildGroups (fs : List (String × FileData)) :
    List String → List (List Line × List String) →
    Except String (List (List Line × List String))
  | [], seen => .ok seen
  | fpath :: rest, seen =>
      match (fs.find? (fun p => p.1 = fpath)).map Prod.snd with
      | some (.readable lines _) =>
          buildGroups fs rest (addToGroups seen (signatureOf lines) fpath)
      | _ => .error fpath

/-- `CodeAnalyzer._detect_duplicates`: group the analyzed files by their
first-10-lines signature and report every group of more than one file. -/
def detect_duplicates (fs : List (String × FileData)) (files : List String) :
    Except String (List String) :=
  (buildGroups fs files []).map (fun seen =>
    seen.flatMap (fun g =>
      if g.2.length > 1 then
        ["Possible duplicate code in: " ++ String.intercalate ", " g.2]
      else []))

/-- `self.results`, with one typed field per key of the dictionary built
in `CodeAnalyzer.__init__` (plus `imports_graph`, which
`_register_imports` adds with `setdefault` and which starts absent —
absent and empty are observationally equal through `get`). -/
structure Results where
  files : List String := []
  errors : List String := []
  warnings : List String := []
  complexity : List (String × Nat) := []
  missing_docstrings : List String := []
  duplicates : List String := []
  import_cycles : List String := []
  pep8 : List String := []
  imports_graph : ImportGraph := []

/-- One entry of a modelled directory: a named file with contents, or a
named subdirectory. -/
inductive Entry where
  | file (name : String) (data : FileData)
  | dir (name : String) (entries : List Entry)

/-- The root path handed to the analyzer, with the outcome of the
`os.path.isfile` / `os.path.isdir` tests baked into the constructor: an
existing ordinary file, an existing directory, or neither. -/
inductive Root where
  | file (path : String) (data : FileData)
  | dir (path : String) (entries : List Entry)
  | invalid (path : String)

/-- The path string of the root. -/
def Root.path : Root → String
  | .file p _ => p
  | .dir p _ => p
  | .invalid p => p

/-- `os.path.join(root, f)`. -/
def pathJoin (root f : String) : String := root ++ "/" ++ f

/-- The plain files directly inside one directory, in listing order. -/
def dirFiles (base : String) (entries : List Entry) :
    List (String × FileData) :=
  entries.flatMap (fun e =>
    match e with
    | .file name data => [(pathJoin base name, data)]
    | .dir _ _ => [])

mutual

/-- The files `os.walk` finds strictly below one entry: nothing for a
plain file, the recursive walk for a subdirectory. -/
def entryWalk : String → Entry → List (String × FileData)
  | _, .file _ _ => []
  | base, .dir name subs =>
      dirFiles (pathJoin base name) subs
        ++ subdirsWalk (pathJoin base name) subs

/-- The files found by descending into each subdirectory of the listing,
in order. -/
def subdirsWalk : String → List Entry → List (String × FileData)
  | _, [] => []
  | base, e :: rest => entryWalk base e ++ subdirsWalk base rest

end

/-- `os.walk` as `run` consumes it: for every directory, top-down, the
plain files of that directory (in listing order) and then the
subdirectories recursively. -/
def walkEntries (base : String) (entries : List Entry) :
    List (String × FileData) :=
  dirFiles base entries ++ subdirsWalk base entries

/-- The candidate files `run` discovers: the root itself if it is a file
whose path ends in `.py`; every file ending in `.py` under a recursive,
exclusion-free walk if the root is a directory; nothing otherwise. -/
def discoveredFiles : Root → List (String × FileData)
  | .file path data => if pyEndsWith path ".py" then [(path, data)] else []
  | .dir path entries =>
      (walkEntries path entries).filter (fun p => pyEndsWith p.1 ".py")
  | .invalid _ => []

/-- Does the root fall into the `else` branch of `run` (`[ERROR] Invalid
path.`)?  True when the path is neither an existing `.py` file nor an
existing directory. -/
def isInvalidRoot : Root → Bool
  | .file path _ => !pyEndsWith path ".py"
  | .dir _ _ => false
  | .invalid _ => true

/-- `CodeAnalyzer._analyze_file`: record the path, then read and parse;
an unreadable file or a parse failure degrades to one error entry and
ends the file's analysis; otherwise run every per-file evaluator in
source order. -/
def analyze_file (filepath : String) (data : FileData) (r : Results) :
    Results :=
  let r := { r with files := r.files ++ [filepath] }
  match data with
  | .unreadable =>
      { r with errors := r.errors ++ ["Cannot read file: " ++ filepath] }
  | .readable lines parsed =>
    match parsed with
    | .error e =>
        { r with errors := r.errors
            ++ ["Syntax error in " ++ filepath ++ ": " ++ e] }
    | .ok tree =>
        let r := { r with missing_docstrings := r.missing_docstrings
            ++ analyze_docstrings filepath tree }
        let c := compute_complexity tree
        let r := { r with
            complexity := dictSet r.complexity filepath c,
            warnings := r.warnings ++ complexityWarnings filepath tree }
        let r := { r with warnings := r.warnings
            ++ analyze_structure filepath tree }
        let r := { r with pep8 := r.pep8 ++ check_pep8 filepath lines }
        let g := dictSet r.imports_graph (moduleId filepath)
          (collectImports tree)
        { r with imports_graph := g }

/-- The per-file phase of `run`: `_analyze_file` on every discovered
candidate, in discovery order. -/
def analyzeAll (fs : List (String × FileData)) (r : Results) : Results :=
  fs.foldl (fun r p => analyze_file p.1 p.2 r) r

/-- How `run` ends: a normal return, or an exception escaping it (the
unguarded `open` of `_detect_duplicates`), carrying the path it was
reading. -/
inductive Outcome where
  | normal
  | raised (path : String)
  deriving DecidableEq, Repr

/-- The lines `_print_summary` prints, one string per `print` call. -/
def summaryLines (r : Results) : List String :=
  ["\nANALYSIS SUMMARY", "Analyzed files: " ++ toString r.files.length]
  ++ (if r.errors ≠ [] then
        "\nErrors:" :: r.errors.map (fun e => "  - " ++ e) else [])
  ++ (if r.warnings ≠ [] then
        "\nWarnings:" :: r.warnings.map (fun w => "  - " ++ w) else [])
  ++ (if r.missing_docstrings ≠ [] then
        "\nMissing docstrings:"
          :: r.missing_docstrings.map (fun d => "  - " ++ d) else [])
  ++ (if r.pep8 ≠ [] then
        "\nPEP8 issues:" :: r.pep8.map (fun p => "  - " ++ p) else [])
  ++ (if r.import_cycles ≠ [] then
        "\nImport cycles:" :: r.import_cycles.map (fun c => "  - " ++ c)
      else [])
  ++ (if r.duplicates ≠ [] then
        "\nDuplicate code warnings:"
          :: r.duplicates.map (fun c => "  - " ++ c) else [])
  ++ ["\nEND OF REPORT\n"]

/-- The phase of `run` after file discovery: per-file analysis, cycle
detection, duplicate detection (which may raise), and the summary
print. -/
def finishRun (fs : List (String × FileData)) (startLog : List String) :
    Results × List String × Outcome :=
  let r := analyzeAll fs {}
  let r := { r with import_cycles := r.import_cycles
      ++ detect_import_cycles r.imports_graph }
  match detect_duplicates fs r.files with
  | .error p => (r, startLog, .raised p)
  | .ok dups =>
      let r := { r with duplicates := r.duplicates ++ dups }
      (r, startLog ++ summaryLines r, .normal)

/-- `CodeAnalyzer.run`: the final `self.results`, everything printed,
and whether the run returned normally or an exception escaped it. -/
def run (root : Root) : Results × List String × Outcome :=
  let startLog := ["[Analyzer] Starting analysis: " ++ root.path]
  match root with
  | .file path data =>
      if pyEndsWith path ".py" then finishRun [(path, data)] startLog
      else ({}, startLog ++ ["[ERROR] Invalid path."], .normal)
  | .dir path entries =>
      finishRun
        ((walkEntries path entries).filter (fun p => pyEndsWith p.1 ".py"))
        startLog
  | .invalid _ => ({}, startLog ++ ["[ERROR] Invalid path."], .normal)

/-! ## Bridging lemmas -/

theorem walkList_eq (cs : List Node) : walkList cs = cs.flatMap walk := by
  induction cs with
  | nil => rfl
  | cons c cs ih => simp [walkList, ih]

theorem nestingDepthList_eq (cs : List Node) (cur : Nat) :
    nestingDepthList cs cur = cs.map (fun c => nesting_depth c cur) := by
  induction cs with
  | nil => rfl
  | cons c cs ih => simp [nestingDepthList, ih]

theorem foldl_count {α : Type} (p : α → Bool) (l : List α) (n : Nat) :
    l.foldl (fun c x => if p x then c + 1 else c) n = n + (l.filter p).length := by
  induction l generalizing n with
  | nil => simp
  | cons x xs ih =>
      by_cases h : p x
      · simp only [List.foldl_cons, h, if_true, ih, List.filter_cons_of_pos,
          List.length_cons]
        omega
      · simp [List.foldl_cons, h, ih]

theorem compute_complexity_eq (tree : Node) :
    compute_complexity tree = 1 + ((walk tree).filter isDecision).length := by
  unfold compute_complexity
  exact foldl_count isDecision (walk tree) 1

/-! ## C4: complexity scoring -/

/-- C4.  For every parseable file, the complexity score equals 1 plus one
per decision-point node anywhere in the tree; it is at least 1
(deterministic because the embedding is a pure function of the tree); a
tree with zero decision points scores exactly 1; and the high-complexity
Warning citing the file and score is emitted if and only if the score
exceeds 12. -/
theorem c4_complexity_score (filepath : String) (tree : Node) :
    compute_complexity tree = 1 + ((walk tree).filter isDecision).length
    ∧ 1 ≤ compute_complexity tree
    ∧ (((walk tree).filter isDecision).length = 0 →
        compute_complexity tree = 1)
    ∧ (complexityWarnings filepath tree ≠ [] ↔ compute_complexity tree > 12)
    ∧ (compute_complexity tree > 12 →
        complexityWarnings filepath tree =
          [filepath ++ " has high cyclomatic complexity: "
            ++ toString (compute_complexity tree)]) := by
  refine ⟨compute_complexity_eq tree, ?_, ?_, ?_, ?_⟩
  · rw [compute_complexity_eq]; omega
  · intro h; rw [compute_complexity_eq, h]
  · unfold complexityWarnings
    by_cases h : compute_complexity tree > 12 <;> simp [h]
  · intro h; unfold complexityWarnings; simp [h]

/-- Witness for C4 at a concrete tree with one decision point (the
hypothesis of the third conjunct is vacuous there; the theorem is applied
at a concrete input and its consequences evaluated). -/
theorem c4_complexity_score_witness :
    compute_complexity (Node.mk (.ifK 1) [Node.mk .otherK []]) =
      1 + ((walk (Node.mk (.ifK 1) [Node.mk .otherK []])).filter
        isDecision).length
    ∧ 1 ≤ compute_complexity (Node.mk (.ifK 1) [Node.mk .otherK []]) :=
  ⟨(c4_complexity_score "f.py" (Node.mk (.ifK 1) [Node.mk .otherK []])).1,
    (c4_complexity_score "f.py" (Node.mk (.ifK 1) [Node.mk .otherK []])).2.1⟩

/-! ## C7: cycle detection reports one finding per starting node -/

/-- C7.  For the ImportGraph with the two edges A imports B and B imports
A, the cycle detector emits one ImportCycle finding per starting node on
the cycle — the traversal started at A and the one started at B — each
joined in visitation order from the repeated node back to itself, and
does not deduplicate them. -/
theorem c7_cycle_per_start_node :
    detect_import_cycles [("A", ["B"]), ("B", ["A"])] =
      ["Cycle detected: A -> B -> A", "Cycle detected: B -> A -> B"] := rfl

/-! ## C3: a syntax error yields one Error finding and nothing else -/

/-- C3.  For every file whose text fails to parse, `_analyze_file`
records exactly one syntax-error Error finding for that file and leaves
every other collection of the results untouched (no complexity entry, no
docstring finding, no warning, no style finding, no import edge); in a
whole single-file run the results hold exactly that one finding and no
complexity, docstring, warning or style findings at all. -/
theorem c3_syntax_error_single_finding (filepath e : String)
    (lines : List Line) (r : Results) :
    analyze_file filepath (.readable lines (.error e)) r =
      { r with
          files := r.files ++ [filepath],
          errors := r.errors
            ++ ["Syntax error in " ++ filepath ++ ": " ++ e] }
    ∧ (pyEndsWith filepath ".py" = true →
        ((run (Root.file filepath (.readable lines (.error e)))).1.errors =
            ["Syntax error in " ++ filepath ++ ": " ++ e]
          ∧ (run (Root.file filepath (.readable lines (.error e)))).1.complexity = []
          ∧ (run (Root.file filepath (.readable lines (.error e)))).1.missing_docstrings = []
          ∧ (run (Root.file filepath (.readable lines (.error e)))).1.warnings = []
          ∧ (run (Root.file filepath (.readable lines (.error e)))).1.pep8 = [])) := by
  constructor
  · rfl
  · intro h
    simp [run, h, finishRun, analyzeAll, analyze_file, detect_duplicates,
      buildGroups, List.find?, addToGroups, signatureOf,
      detect_import_cycles, Except.map]

/-- Witness for C3 at a concrete file name, line list and parse error. -/
theorem c3_syntax_error_single_finding_witness :
    pyEndsWith "bad.py" ".py" = true
    ∧ (run (Root.file "bad.py"
        (.readable [['x']] (.error "invalid syntax")))).1.errors =
        ["Syntax error in bad.py: invalid syntax"] := by
  refine ⟨by decide, ?_⟩
  exact ((c3_syntax_error_single_finding "bad.py" "invalid syntax" [['x']]
    {}).2 (by decide)).1

/-! ## C6: the per-line style checks -/

theorem endsWithChars_single (c : Char) (cs : Line) :
    endsWithChars cs [c] = true ↔ cs.getLast? = some c := by
  induction cs with
  | nil => simp [endsWithChars]
  | cons x xs ih =>
      cases xs with
      | nil => simp [endsWithChars]
      | cons y ys =>
          have h1 : endsWithChars (x :: y :: ys) [c]
              = endsWithChars (y :: ys) [c] := by
            simp [endsWithChars, List.length_cons]
          rw [h1, List.getLast?_cons_cons]
          exact ih

/-- C6.  Per line of raw text: a line of exactly 121 characters produces
the line-too-long StyleIssue while a line of exactly 120 does not; a line
whose last character is a space produces the trailing-whitespace
StyleIssue while a line whose last character is not a space does not
(only the final character matters); the four per-line checks fire
independently, the line's finding list being their concatenation; and a
single line can yield more than one StyleIssue finding. -/
theorem c6_style_per_line (filepath : String) (i : Nat) (line : Line) :
    (line.length = 121 → tooLongIssue filepath i line =
      [filepath ++ ":" ++ toString i ++ " -> Line too long ("
        ++ "121" ++ " > 120)"])
    ∧ (line.length = 120 → tooLongIssue filepath i line = [])
    ∧ (line.getLast? = some ' ' → trailingIssue filepath i line =
        [filepath ++ ":" ++ toString i ++ " -> Trailing whitespace"])
    ∧ (∀ c, line.getLast? = some c → c ≠ ' ' →
        trailingIssue filepath i line = [])
    ∧ lineIssues filepath i line =
        tooLongIssue filepath i line ++ trailingIssue filepath i line
          ++ commaIssue filepath i line ++ tabIssue filepath i line
    ∧ (2 ≤ (lineIssues filepath i [',', 'a', '\t']).length) := by
  refine ⟨?_, ?_, ?_, ?_, rfl, ?_⟩
  · intro h
    unfold tooLongIssue
    rw [h]
    simp only [gt_iff_lt, Nat.lt_irrefl, if_true, show (120 : Nat) < 121 by norm_num]
    rfl
  · intro h
    unfold tooLongIssue
    rw [h]
    simp
  · intro h
    unfold trailingIssue
    rw [if_pos ((endsWithChars_single ' ' line).mpr h)]
  · intro c hc hne
    unfold trailingIssue
    rw [if_neg]
    intro hcontra
    have := (endsWithChars_single ' ' line).mp hcontra
    rw [hc] at this
    exact hne (Option.some.inj this)
  · simp [lineIssues, tooLongIssue, trailingIssue, commaIssue, tabIssue,
      endsWithChars, commaNoSpace, isWordChar]

/-- Witness for C6: the theorem applied at concrete lines of lengths 121
and 120, a line ending in a space, and a line ending in a non-space. -/
theorem c6_style_per_line_witness :
    tooLongIssue "f.py" 1 (List.replicate 121 ' ') =
      ["f.py" ++ ":" ++ toString 1 ++ " -> Line too long ("
        ++ "121" ++ " > 120)"]
    ∧ tooLongIssue "f.py" 1 (List.replicate 120 ' ') = []
    ∧ trailingIssue "f.py" 1 ['a', ' '] =
        ["f.py:1 -> Trailing whitespace"]
    ∧ trailingIssue "f.py" 1 [' ', 'a'] = [] :=
  ⟨(c6_style_per_line "f.py" 1 (List.replicate 121 ' ')).1 (by decide),
    (c6_style_per_line "f.py" 1 (List.replicate 120 ' ')).2.1 (by decide),
    (c6_style_per_line "f.py" 1 ['a', ' ']).2.2.1 (by decide),
    (c6_style_per_line "f.py" 1 [' ', 'a']).2.2.2.1 'a' (by decide)
      (by decide)⟩

/-! ## C5: nesting-depth measurement -/

theorem foldl_max_map_succ (l : List Nat) (a : Nat) :
    (l.map (fun x => x + 1)).foldl Nat.max (a + 1) = l.foldl Nat.max a + 1 := by
  induction l generalizing a with
  | nil => rfl
  | cons x xs ih =>
      simp only [List.map_cons, List.foldl_cons, Nat.succ_max_succ]
      exact ih (Nat.max a x)

theorem nesting_depth_shift_aux :
    ∀ (s : Nat) (n : Node), sizeOf n ≤ s → ∀ cur,
      nesting_depth n (cur + 1) = nesting_depth n cur + 1 := by
  intro s
  induction s with
  | zero =>
      intro n h
      cases n with
      | mk k cs =>
          simp only [Node.mk.sizeOf_spec] at h
          omega
  | succ s ih =>
      intro n h cur
      cases n with
      | mk k cs =>
          cases k
          case ifK l =>
            have hlist : ∀ cur2 : Nat, nestingDepthList cs (cur2 + 1)
                = (nestingDepthList cs cur2).map (fun x => x + 1) := by
              intro cur2
              rw [nestingDepthList_eq, nestingDepthList_eq, List.map_map]
              apply List.map_congr_left
              intro c hc
              have hcle : sizeOf c ≤ s := by
                have h2 := List.sizeOf_lt_of_mem hc
                simp only [Node.mk.sizeOf_spec] at h
                omega
              exact ih c hcle cur2
            show (nestingDepthList cs (cur + 1 + 1)).foldl Nat.max (cur + 1)
                = (nestingDepthList cs (cur + 1)).foldl Nat.max cur + 1
            rw [hlist (cur + 1)]
            exact foldl_max_map_succ _ cur
          all_goals rfl

theorem nesting_depth_shift (n : Node) (cur : Nat) :
    nesting_depth n (cur + 1) = nesting_depth n cur + 1 :=
  nesting_depth_shift_aux (sizeOf n) n (Nat.le_refl _) cur

theorem foldl_max_map_succ_of_ne_nil (l : List Nat) (h : l ≠ []) :
    (l.map (fun x => x + 1)).foldl Nat.max 0 = l.foldl Nat.max 0 + 1 := by
  cases l with
  | nil => exact absurd rfl h
  | cons x xs =>
      simp only [List.map_cons, List.foldl_cons, Nat.zero_max]
      exact foldl_max_map_succ xs x

theorem nesting_depth_non_if (c : Node) (h : isIfNode c = false) (cur : Nat) :
    nesting_depth c cur = cur := by
  cases c with
  | mk k cs =>
      cases k
      case ifK l => simp [isIfNode, Node.kind] at h
      all_goals rfl

theorem analyze_structure_ne_nil_iff (filepath : String) (tree : Node) :
    analyze_structure filepath tree ≠ [] ↔
      ∃ n ∈ walk tree, isIfNode n = true ∧ nesting_depth n 0 > 4 := by
  unfold analyze_structure
  rw [Ne, List.flatMap_eq_nil_iff]
  push_neg
  constructor
  · rintro ⟨n, hn, hne⟩
    refine ⟨n, hn, ?_⟩
    by_cases h1 : isIfNode n
    · by_cases h2 : nesting_depth n 0 > 4
      · exact ⟨h1, h2⟩
      · exact absurd (by simp [h1, h2]) hne
    · exact absurd (by simp [h1]) hne
  · rintro ⟨n, hn, h1, h2⟩
    exact ⟨n, hn, by simp [h1, h2]⟩

theorem foldl_max_eq_max (l : List Nat) (a : Nat) :
    l.foldl Nat.max a = Nat.max a (l.foldl Nat.max 0) := by
  induction l generalizing a with
  | nil => simp
  | cons x xs ih =>
      simp only [List.foldl_cons, Nat.zero_max]
      rw [ih (Nat.max a x), ih x]
      exact Nat.max_assoc a x (xs.foldl Nat.max 0)

theorem maxCond_mk (k : NodeKind) (cs : List Node) :
    maxCond (.mk k cs) =
      if isIfNode (.mk k cs) then 1 + maxCondList cs else maxCondList cs := by
  cases k <;> rfl

theorem maxCond_walk (s : Nat) :
    (∀ n : Node, sizeOf n ≤ s → maxCond n =
      (((walk n).filter isIfNode).map specNestingDepth).foldl Nat.max 0)
    ∧ (∀ cs : List Node, sizeOf cs ≤ s → maxCondList cs =
      (((walkList cs).filter isIfNode).map specNestingDepth).foldl Nat.max 0) := by
  induction s with
  | zero =>
      constructor
      · intro n h
        cases n with
        | mk k cs =>
            simp only [Node.mk.sizeOf_spec] at h
            omega
      · intro cs h
        cases cs with
        | nil => rfl
        | cons c cs' =>
            simp only [List.cons.sizeOf_spec] at h
            omega
  | succ s ih =>
      constructor
      · intro n h
        cases n with
        | mk k cs =>
            have hcs : sizeOf cs ≤ s := by
              simp only [Node.mk.sizeOf_spec] at h
              omega
            have hQ := ih.2 cs hcs
            rw [maxCond_mk]
            show _ = (((Node.mk k cs :: walkList cs).filter
              isIfNode).map specNestingDepth).foldl Nat.max 0
            rw [List.filter_cons]
            by_cases hif : isIfNode (Node.mk k cs)
            · simp only [hif, if_true, List.map_cons, List.foldl_cons,
                Nat.zero_max]
              rw [foldl_max_eq_max, ← hQ]
              show 1 + maxCondList cs
                = Nat.max (1 + maxCondList cs) (maxCondList cs)
              exact (Nat.max_eq_left (by omega)).symm
            · simp only [hif, if_false, Bool.false_eq_true]
              exact hQ
      · intro cs h
        cases cs with
        | nil => rfl
        | cons c cs' =>
            have hsz : sizeOf c ≤ s ∧ sizeOf cs' ≤ s := by
              simp only [List.cons.sizeOf_spec] at h
              omega
            have hP := ih.1 c hsz.1
            have hQ := ih.2 cs' hsz.2
            show Nat.max (maxCond c) (maxCondList cs')
              = (((walk c ++ walkList cs').filter
                  isIfNode).map specNestingDepth).foldl Nat.max 0
            rw [List.filter_append, List.map_append, List.foldl_append,
              foldl_max_eq_max, ← hP, ← hQ]

theorem specNestingDepth_eq_walk (k : NodeKind) (cs : List Node) :
    specNestingDepth (.mk k cs) =
      1 + (((walkList cs).filter isIfNode).map specNestingDepth).foldl
        Nat.max 0 := by
  have h := (maxCond_walk (sizeOf cs)).2 cs (Nat.le_refl _)
  show 1 + maxCondList cs = _
  rw [h]

/-- C5 counterexample.  In the tree `if: while: if:`, the inner
conditional is reachable as a descendant of the outer one (it lies in the
walk of the outer node's children) and is a leaf conditional of measured
depth 1, so the claim predicts depth 1 + 1 = 2 for the outer node; the
code's `_nesting_depth` stops at the intervening loop node and computes
1, refuting the claimed per-descendant equation. -/
theorem c5_nesting_depth_counterexample :
    nesting_depth (Node.mk (.ifK 1)
      [Node.mk .whileK [Node.mk (.ifK 2) [Node.mk .otherK []]]]) 0 = 1
    ∧ specNestingDepth (Node.mk (.ifK 1)
        [Node.mk .whileK [Node.mk (.ifK 2) [Node.mk .otherK []]]]) = 2
    ∧ Node.mk (.ifK 2) [Node.mk .otherK []] ∈
        walkList [Node.mk .whileK [Node.mk (.ifK 2) [Node.mk .otherK []]]]
    ∧ isIfNode (Node.mk (.ifK 2) [Node.mk .otherK []]) = true
    ∧ nesting_depth (Node.mk (.ifK 2) [Node.mk .otherK []]) 0 = 1 := by
  refine ⟨rfl, rfl, ?_, rfl, rfl⟩
  show Node.mk (.ifK 2) [Node.mk .otherK []] ∈
    [Node.mk .whileK [Node.mk (.ifK 2) [Node.mk .otherK []]],
      Node.mk (.ifK 2) [Node.mk .otherK []], Node.mk .otherK []]
  exact List.mem_cons_of_mem _ (List.mem_cons_self _ _)

/-- C5 (amended).  For every conditional-branch node (which in a real
parse tree always has at least one child), the measured nesting depth
equals 1 plus the maximum measured depth over its direct children, a
non-conditional child measuring 0 — so only chains of directly nested
conditionals count, and a conditional below an intervening
non-conditional node does not contribute; a Warning with the node's line
and measured depth is emitted for every conditional in the walk whose
measured depth exceeds 4, and some warning is emitted if and only if
such a node exists (hence a flat depth-1 conditional never triggers
it). -/
theorem c5_nesting_depth_amended (filepath : String) (tree : Node)
    (l : Nat) (cs : List Node) (h : cs ≠ []) :
    nesting_depth (.mk (.ifK l) cs) 0 =
      1 + (cs.map (fun c => nesting_depth c 0)).foldl Nat.max 0
    ∧ (∀ c ∈ cs, isIfNode c = false → nesting_depth c 0 = 0)
    ∧ (analyze_structure filepath tree ≠ [] ↔
        ∃ n ∈ walk tree, isIfNode n = true ∧ nesting_depth n 0 > 4)
    ∧ (∀ n ∈ walk tree, isIfNode n = true → nesting_depth n 0 > 4 →
        (filepath ++ ":" ++ toString n.lineno ++ " -> Deep nesting ("
          ++ toString (nesting_depth n 0) ++ " levels)")
          ∈ analyze_structure filepath tree) := by
  refine ⟨?_, ?_, analyze_structure_ne_nil_iff filepath tree, ?_⟩
  · show (nestingDepthList cs (0 + 1)).foldl Nat.max 0 = _
    have h1 : nestingDepthList cs (0 + 1)
        = (cs.map (fun c => nesting_depth c 0)).map (fun x => x + 1) := by
      rw [nestingDepthList_eq, List.map_map]
      apply List.map_congr_left
      intro c _
      exact nesting_depth_shift c 0
    rw [h1, foldl_max_map_succ_of_ne_nil]
    · omega
    · intro hc
      exact h (List.map_eq_nil_iff.mp hc)
  · intro c _ hc
    exact nesting_depth_non_if c hc 0
  · intro n hn h1 h2
    unfold analyze_structure
    rw [List.mem_flatMap]
    exact ⟨n, hn, by simp [h1, h2]⟩

/-- Witness for the amended C5 at a concrete leaf conditional with one
(non-conditional) child. -/
theorem c5_nesting_depth_amended_witness :
    nesting_depth (Node.mk (.ifK 1) [Node.mk .otherK []]) 0 =
      1 + ([Node.mk .otherK []].map
        (fun c => nesting_depth c 0)).foldl Nat.max 0 :=
  (c5_nesting_depth_amended "f.py" (Node.mk .otherK []) 1
    [Node.mk .otherK []] (by simp)).1

/-! ## C2: an invalid root terminates the run early -/

/-- C2 counterexample.  The claim requires exactly one Error recorded in
the results structure for an invalid root; `run` only prints
`[ERROR] Invalid path.` and returns, so the errors collection of the
results stays empty: at the concrete invalid root "missing" its length
is 0, not 1. -/
theorem c2_invalid_root_counterexample :
    (run (Root.invalid "missing")).1.errors = []
    ∧ (run (Root.invalid "missing")).1.errors.length ≠ 1 :=
  ⟨rfl, by decide⟩

/-- C2 (amended).  For every root that is neither a file with the
recognized source suffix nor an existing directory, the run terminates
early with the results structure left entirely empty — files list empty,
errors list empty, and no complexity, style, cycle or duplicate findings
computed; the single invalid-path error is reported on the console only
(the last line printed), and the run returns normally. -/
theorem c2_invalid_root_amended (root : Root)
    (h : isInvalidRoot root = true) :
    (run root).1 = ({} : Results)
    ∧ (run root).2.1 = ["[Analyzer] Starting analysis: " ++ root.path,
        "[ERROR] Invalid path."]
    ∧ (run root).2.2 = .normal := by
  cases root with
  | file path data =>
      have hp : pyEndsWith path ".py" = false := by
        simpa [isInvalidRoot] using h
      simp [run, hp, Root.path]
  | dir path entries => simp [isInvalidRoot] at h
  | invalid path => simp [run, Root.path]

/-- Witness for the amended C2 at a concrete nonexistent path. -/
theorem c2_invalid_root_amended_witness :
    isInvalidRoot (Root.invalid "nope") = true
    ∧ (run (Root.invalid "nope")).1 = ({} : Results) :=
  ⟨rfl, (c2_invalid_root_amended (Root.invalid "nope") rfl).1⟩

/-! ## C9: the analyzed-files list matches discovery -/

theorem analyze_file_files (filepath : String) (data : FileData)
    (r : Results) :
    (analyze_file filepath data r).files = r.files ++ [filepath] := by
  cases data with
  | unreadable => rfl
  | readable lines parsed =>
      cases parsed with
      | error e => rfl
      | ok tree => rfl

theorem analyzeAll_files (fs : List (String × FileData)) (r : Results) :
    (analyzeAll fs r).files = r.files ++ fs.map Prod.fst := by
  induction fs generalizing r with
  | nil => simp [analyzeAll]
  | cons p fs ih =>
      show (analyzeAll fs (analyze_file p.1 p.2 r)).files = _
      rw [ih, analyze_file_files]
      simp

theorem finishRun_files (fs : List (String × FileData))
    (startLog : List String) :
    (finishRun fs startLog).1.files = fs.map Prod.fst := by
  simp only [finishRun]
  split
  · simp [analyzeAll_files]
  · simp [analyzeAll_files]

/-- C9.  For every valid root, the results' analyzed-files list holds
exactly the files discovered under the root with the `.py` suffix — a
single matching file for a file root, every matching file of the
recursive exclusion-free walk for a directory root — one entry each,
unreadable and unparseable files included, so its length equals the
number of discovered files. -/
theorem c9_file_count (root : Root) (h : isInvalidRoot root = false) :
    (run root).1.files = (discoveredFiles root).map Prod.fst
    ∧ (run root).1.files.length = (discoveredFiles root).length := by
  have hmain : (run root).1.files = (discoveredFiles root).map Prod.fst := by
    cases root with
    | file path data =>
        have hp : pyEndsWith path ".py" = true := by
          simpa [isInvalidRoot] using h
        simp [run, hp, discoveredFiles, finishRun_files]
    | dir path entries =>
        simp [run, discoveredFiles, finishRun_files]
    | invalid path => simp [isInvalidRoot] at h
  exact ⟨hmain, by rw [hmain, List.length_map]⟩

/-- Witness for C9 at a concrete one-file directory root. -/
theorem c9_file_count_witness :
    isInvalidRoot (Root.dir "d" [Entry.file "a.py" .unreadable]) = false
    ∧ (run (Root.dir "d" [Entry.file "a.py" .unreadable])).1.files.length
      = (discoveredFiles
          (Root.dir "d" [Entry.file "a.py" .unreadable])).length :=
  ⟨rfl, (c9_file_count (Root.dir "d" [Entry.file "a.py" .unreadable])
    rfl).2⟩

/-! ## C1: a bad file must not abort the run -/

/-- C1 evaluated at the failing input.  A directory root holding one
unreadable file does degrade it to an Error finding, but the run then
raises out of `_detect_duplicates`, which re-opens every analyzed file
without a `try` guard — contradicting the claimed contract that the run
never raises past its boundary and both cross-file analyzers complete.
A merely unparseable (readable) bad file, by contrast, lets the run
finish normally. -/
theorem c1_run_raises_on_unreadable_file :
    (run (Root.dir "d" [Entry.file "bad.py" .unreadable])).2.2
      = .raised "d/bad.py"
    ∧ (run (Root.dir "d" [Entry.file "bad.py" .unreadable])).1.errors
      = ["Cannot read file: d/bad.py"]
    ∧ (run (Root.dir "d" [Entry.file "bad.py"
        (.readable [] (.error "invalid syntax"))])).2.2 = .normal :=
  ⟨rfl, rfl, rfl⟩

/-! ## C8: duplicate detection by first-10-lines signature -/

/-- C8.  For a pair of readable analyzed files whose first-10-lines
signatures are equal and a third readable file whose signature differs,
the duplicate detector produces exactly one DuplicateGroup finding,
listing exactly the two matching paths (the third is absent); a file of
at most 10 lines is signed by its full content. -/
theorem c8_duplicate_grouping (p1 p2 p3 : String) (l1 l2 l3 : List Line)
    (t1 t2 t3 : Except String Node)
    (h12 : p1 ≠ p2) (h13 : p1 ≠ p3) (h23 : p2 ≠ p3)
    (hsig : signatureOf l1 = signatureOf l2)
    (hdiff : signatureOf l1 ≠ signatureOf l3) :
    detect_duplicates
      [(p1, .readable l1 t1), (p2, .readable l2 t2), (p3, .readable l3 t3)]
      [p1, p2, p3]
      = .ok ["Possible duplicate code in: "
          ++ String.intercalate ", " [p1, p2]]
    ∧ (∀ l : List Line, l.length ≤ 10 → signatureOf l = l) := by
  have hdiff2 : signatureOf l2 ≠ signatureOf l3 := hsig ▸ hdiff
  constructor
  · simp [detect_duplicates, buildGroups, List.find?, addToGroups,
      Ne.symm h12, Ne.symm h13, Ne.symm h23, h12, h13, h23,
      hsig, hdiff, hdiff2, Except.map]
  · intro l hl
    exact List.take_of_length_le hl

/-- Witness for C8 at three concrete files, the first two sharing their
(single-line) content. -/
theorem c8_duplicate_grouping_witness :
    detect_duplicates
      [("a.py", .readable [['x']] (.error "e")),
        ("b.py", .readable [['x']] (.error "e")),
        ("c.py", .readable [['y']] (.error "e"))]
      ["a.py", "b.py", "c.py"]
      = .ok ["Possible duplicate code in: "
          ++ String.intercalate ", " ["a.py", "b.py"]] :=
  (c8_duplicate_grouping "a.py" "b.py" "c.py" [['x']] [['x']] [['y']]
    (.error "e") (.error "e") (.error "e")
    (by decide) (by decide) (by decide) (by decide) (by decide)).1

/-! ## C10: module-less import-from statements leave no trace -/

theorem collectImports_mk (k : NodeKind) (cs : List Node) :
    collectImports (.mk k cs) =
      nodeImports (.mk k cs) ++ (walkList cs).flatMap nodeImports := by
  show (Node.mk k cs :: walkList cs).flatMap nodeImports = _
  rw [List.flatMap_cons]

theorem walkList_flatMap_eq (cs : List Node) (f : Node → List String) :
    (walkList cs).flatMap f
      = cs.flatMap (fun c => (walk c).flatMap f) := by
  induction cs with
  | nil => rfl
  | cons c cs' ih => simp [walkList, ih]

/-- C10.  An import-from statement whose source module is absent (a
purely relative import) records no ImportEdge: its own node contributes
nothing to the collected imports, the whole statement contributes only
what its children contribute, and since its children are alias nodes
carrying no imports the statement contributes nothing at all — so it
adds no node and no edge to the ImportGraph and can never appear in a
reported cycle. -/
theorem c10_relative_import_no_edge (cs : List Node)
    (h : ∀ c ∈ cs, collectImports c = []) :
    nodeImports (.mk (.importFromK none) cs) = []
    ∧ collectImports (.mk (.importFromK none) cs)
        = cs.flatMap collectImports
    ∧ collectImports (.mk (.importFromK none) cs) = [] := by
  refine ⟨rfl, ?_, ?_⟩
  · rw [collectImports_mk, walkList_flatMap_eq]
    rfl
  · rw [collectImports_mk, walkList_flatMap_eq]
    show [] ++ cs.flatMap (fun c => (walk c).flatMap nodeImports) = []
    rw [List.nil_append, List.flatMap_eq_nil_iff]
    exact fun c hc => h c hc

/-- Witness for C10: a `from . import X` statement with one alias child
contributes no import edge. -/
theorem c10_relative_import_no_edge_witness :
    collectImports (Node.mk (.importFromK none) [Node.mk .otherK []])
      = [] :=
  (c10_relative_import_no_edge [Node.mk .otherK []] (by decide)).2.2

end AiCodeAgent
